import Mathlib

/-!
# Verification of the sendspin-plugin receive pipeline

Shallow embedding of the sendspin-plugin player core (clock synchronization
filter, jitter-buffered playback scheduler, binary frame handler, server
command handler, reconnect policy) together with proofs about the claims of
the natural-language specification.

Conventions used throughout the embedding:
* JavaScript `Date.now()` values are modelled as integer milliseconds
  (`nowMs : Int`); `Date.now() * 1000` is `nowMs * 1000` microseconds.
* `new Date(x)` truncates its numeric argument toward zero, so
  `new Date(serverUnixTime / 1000)` is modelled as `Int.div serverUnixTime 1000`.
* Effectful methods become pure state-transformers; the wall clock is passed
  explicitly as an argument.
-/

namespace Sendspin

/-- Clock sync quality, the JS strings good, degraded, lost. -/
inductive Quality where
  | good
  | degraded
  | lost
deriving DecidableEq, Repr

/-- State of the `ClockSync` class (clock-sync.js).  `lastSync` stores the
`Date` of the last processed sync response in milliseconds. -/
structure ClockSync where
  serverLoopStartUnix : Option Int
  rtt : Int
  quality : Quality
  lastSync : Option Int
  sampleCount : Nat
  synced : Bool
deriving DecidableEq, Repr

namespace ClockSync

/-- The `ClockSync` constructor. -/
def init : ClockSync :=
  { serverLoopStartUnix := none
    rtt := 0
    quality := .lost
    lastSync := none
    sampleCount := 0
    synced := false }

/-- `ClockSync.processSyncResponse(t1, t2, t3, t4)`: `rtt` and `lastSync` are
updated first; samples with `rtt > 100000` are then discarded; the first kept
sample anchors `serverLoopStartUnix = Date.now()*1000 - t2` and sets quality
`good`; later kept samples only refresh the quality from the rtt. -/
def processSyncResponse (s : ClockSync) (t1 t2 t3 t4 : Int) (nowMs : Int) :
    ClockSync :=
  let rtt := (t4 - t1) - (t3 - t2)
  let s1 := { s with rtt := rtt, lastSync := some nowMs }
  if 100000 < rtt then
    s1
  else if s1.synced = false then
    { s1 with
      serverLoopStartUnix := some (nowMs * 1000 - t2)
      synced := true
      quality := .good
      sampleCount := s1.sampleCount + 1 }
  else
    { s1 with
      quality := if rtt < 50000 then .good else .degraded
      sampleCount := s1.sampleCount + 1 }

/-- State effect of `ClockSync.getStats()`: quality is downgraded to `lost`
when the last sync is more than 5000 ms old. -/
def getStatsState (s : ClockSync) (nowMs : Int) : ClockSync :=
  match s.lastSync with
  | some t => if 5000 < nowMs - t then { s with quality := .lost } else s
  | none => s

/-- `ClockSync.serverToUnixTime(serverTime)` of the guarded version of the
class: if quality (after the staleness check of `getStats`) is `lost`, return
`now + 500ms`; if never synced, return `now`; otherwise return
`serverLoopStartUnix + serverTime` unless that differs from now by more than
one hour, in which case return `now + 500ms`.  Returns the possibly-updated
state together with the Unix-microsecond result. -/
def serverToUnixTime (s : ClockSync) (serverTime : Int) (nowMs : Int) :
    ClockSync × Int :=
  let s1 := s.getStatsState nowMs
  if s1.quality = .lost then
    (s1, nowMs * 1000 + 500000)
  else if s1.synced = false then
    (s1, nowMs * 1000)
  else
    let unixTime := s1.serverLoopStartUnix.getD 0 + serverTime
    if 3600000000 < (unixTime - nowMs * 1000).natAbs then
      (s1, nowMs * 1000 + 500000)
    else
      (s1, unixTime)

/-- Structural invariant of the clock filter: while no origin has been
established the quality is still `lost`, and the origin is present exactly
when the filter is marked synced. -/
def WF (s : ClockSync) : Prop :=
  (s.synced = false → s.quality = .lost) ∧
    (s.synced = true ↔ s.serverLoopStartUnix.isSome)

instance (s : ClockSync) : Decidable (WF s) := by
  unfold WF; infer_instance

theorem wf_init : WF init := by decide

theorem wf_processSyncResponse (s : ClockSync) (h : WF s)
    (t1 t2 t3 t4 nowMs : Int) : WF (s.processSyncResponse t1 t2 t3 t4 nowMs) := by
  obtain ⟨h1, h2⟩ := h
  unfold processSyncResponse WF
  dsimp only
  split
  · exact ⟨h1, h2⟩
  · split
    · simp
    · next hs =>
      have hsy : s.synced = true := by
        cases hq : s.synced
        · simp [hq] at hs
        · rfl
      simp [hsy] at h2 ⊢
      exact h2

theorem wf_getStatsState (s : ClockSync) (h : WF s) (nowMs : Int) :
    WF (s.getStatsState nowMs) := by
  obtain ⟨h1, h2⟩ := h
  unfold getStatsState WF
  split
  · split
    · exact ⟨fun _ => rfl, h2⟩
    · exact ⟨h1, h2⟩
  · exact ⟨h1, h2⟩

theorem getStatsState_synced (s : ClockSync) (nowMs : Int) :
    (s.getStatsState nowMs).synced = s.synced := by
  unfold getStatsState
  split <;> first | (split <;> rfl) | rfl

theorem getStatsState_origin (s : ClockSync) (nowMs : Int) :
    (s.getStatsState nowMs).serverLoopStartUnix = s.serverLoopStartUnix := by
  unfold getStatsState
  split <;> first | (split <;> rfl) | rfl

end ClockSync

/-- C2: for every server timestamp, `serverToUnixTime` returns
`now + 500_000` when the (staleness-adjusted) quality is `lost` or no origin
has been established; otherwise it returns `origin + ts`, except that a
result more than one hour away from `now` is replaced by the
`now + 500_000` estimate.  Stated for every clock state satisfying the
structural invariant `WF` (established by `wf_init`,
`wf_processSyncResponse` and `wf_getStatsState`). -/
theorem C2_serverToUnixTime (s : ClockSync) (h : ClockSync.WF s)
    (ts nowMs : Int) :
    (s.serverToUnixTime ts nowMs).2 =
      if (s.getStatsState nowMs).quality = .lost ∨
          s.serverLoopStartUnix = none then
        nowMs * 1000 + 500000
      else if 3600000000 <
          (s.serverLoopStartUnix.getD 0 + ts - nowMs * 1000).natAbs then
        nowMs * 1000 + 500000
      else
        s.serverLoopStartUnix.getD 0 + ts := by
  obtain ⟨h1, h2⟩ := h
  unfold ClockSync.serverToUnixTime
  rcases hl : (s.getStatsState nowMs).quality == .lost with _ | _
  · have hl' : ¬(s.getStatsState nowMs).quality = .lost := by
      simpa using hl
    have hq : s.quality ≠ .lost := by
      intro hq
      apply hl'
      unfold ClockSync.getStatsState
      split
      · split <;> simp [hq]
      · simpa using hq
    have hsy : s.synced = true := by
      cases hs : s.synced
      · exact absurd (h1 hs) hq
      · rfl
    have ho : s.serverLoopStartUnix.isSome := h2.mp hsy
    have ho' : s.serverLoopStartUnix ≠ none := by
      cases hx : s.serverLoopStartUnix
      · rw [hx] at ho; simp at ho
      · simp
    simp only [hl', if_false, ClockSync.getStatsState_synced,
      ClockSync.getStatsState_origin, hsy, ho', or_self]
    split
    · next hff => simp at hff
    · split <;> rfl
  · have hl' : (s.getStatsState nowMs).quality = .lost := by
      simpa using hl
    simp [hl']

/-- Witness for C2: a freshly anchored clock (first sync at `nowMs = 1000`
with `t2 = 0`, hence origin `1_000_000` μs) maps server time `5` to Unix time
`1_000_005` μs via the ordinary branch. -/
theorem C2_serverToUnixTime_witness :
    ClockSync.WF (ClockSync.init.processSyncResponse 0 0 0 0 1000) ∧
      ((ClockSync.init.processSyncResponse 0 0 0 0 1000).serverToUnixTime
          5 1000).2 = 1000005 := by
  refine ⟨by decide, ?_⟩
  rw [C2_serverToUnixTime (ClockSync.init.processSyncResponse 0 0 0 0 1000)
    (by decide) 5 1000]
  decide

/-- C3 counterexample: the claim says a sample with rtt exactly 100_000 μs is
rejected, but `processSyncResponse` discards only when `rtt > 100000`;
the sample `(t1,t2,t3,t4) = (0,0,0,100000)` has rtt exactly 100_000 μs and is
accepted: it anchors the clock (`synced = true`) and bumps the sample
counter, which a rejected sample never does. -/
theorem C3_rtt_boundary_counterexample :
    (0 - 0 : Int) - (0 - 0) + 100000 = 100000 ∧
      (ClockSync.init.processSyncResponse 0 0 0 100000 7).synced = true ∧
      (ClockSync.init.processSyncResponse 0 0 0 100000 7).sampleCount = 1 := by
  decide

/-- C3 amended: `submit_sample` computes `rtt = (t4 - t1) - (t3 - t2)`,
always stores `rtt` and `last_sync_at`, and discards the sample exactly when
`rtt` is STRICTLY greater than 100_000 μs (a discarded sample changes nothing
but `rtt` and `last_sync_at`); rtt = 100_000 μs and rtt = 99_999 μs are both
accepted (the sample counter is bumped). -/
theorem C3_rtt_boundary_amended (s : ClockSync) (t1 t2 t3 t4 nowMs : Int) :
    (s.processSyncResponse t1 t2 t3 t4 nowMs).rtt = (t4 - t1) - (t3 - t2) ∧
      (s.processSyncResponse t1 t2 t3 t4 nowMs).lastSync = some nowMs ∧
      (s.processSyncResponse t1 t2 t3 t4 nowMs).sampleCount =
        (if 100000 < (t4 - t1) - (t3 - t2) then s.sampleCount
          else s.sampleCount + 1) ∧
      (100000 < (t4 - t1) - (t3 - t2) →
        s.processSyncResponse t1 t2 t3 t4 nowMs =
          { s with rtt := (t4 - t1) - (t3 - t2), lastSync := some nowMs }) := by
  unfold ClockSync.processSyncResponse
  dsimp only
  refine ⟨?_, ?_, ?_, ?_⟩
  · split
    · rfl
    · split <;> rfl
  · split
    · rfl
    · split <;> rfl
  · split
    · next hgt => simp [hgt]
    · next hgt =>
      have : ¬ 100000 < (t4 - t1) - (t3 - t2) := hgt
      split <;> simp [this]
  · intro hgt
    simp [hgt]

/-- Witness for C3 amended: at rtt = 100_001 the sample is discarded (only
`rtt` and `lastSync` change), and at rtt = 99_999 it is accepted. -/
theorem C3_rtt_boundary_amended_witness :
    ClockSync.init.processSyncResponse 0 0 0 100001 7 =
        { ClockSync.init with rtt := 100001, lastSync := some 7 } ∧
      (ClockSync.init.processSyncResponse 0 0 0 99999 7).sampleCount = 1 := by
  constructor
  · have h :=
      (C3_rtt_boundary_amended ClockSync.init 0 0 0 100001 7).2.2.2 (by decide)
    simpa using h
  · have h := (C3_rtt_boundary_amended ClockSync.init 0 0 0 99999 7).2.2.1
    simpa using h

/-- C4: an accepted sample (rtt ≤ 100_000 μs) arriving at an unsynced filter
anchors `serverLoopStartUnix = now_unix - t2` and sets quality `good`;
an accepted sample arriving at a synced filter leaves the origin (and the
synced flag) unchanged. -/
theorem C4_origin_anchor (s : ClockSync) (t1 t2 t3 t4 nowMs : Int)
    (hacc : (t4 - t1) - (t3 - t2) ≤ 100000) :
    (s.synced = false →
        (s.processSyncResponse t1 t2 t3 t4 nowMs).serverLoopStartUnix =
            some (nowMs * 1000 - t2) ∧
          (s.processSyncResponse t1 t2 t3 t4 nowMs).quality = .good ∧
          (s.processSyncResponse t1 t2 t3 t4 nowMs).synced = true) ∧
      (s.synced = true →
        (s.processSyncResponse t1 t2 t3 t4 nowMs).serverLoopStartUnix =
            s.serverLoopStartUnix ∧
          (s.processSyncResponse t1 t2 t3 t4 nowMs).synced = true) := by
  have hng : ¬ 100000 < (t4 - t1) - (t3 - t2) := not_lt.mpr hacc
  unfold ClockSync.processSyncResponse
  simp only [hng, if_false]
  constructor
  · intro hs
    simp [hs]
  · intro hs
    simp [hs]

/-- Witness for C4: the first accepted sample (rtt = 0, `t2 = 40`,
`nowMs = 1000`) anchors the origin at `1_000_000 - 40` μs, and a second
accepted sample does not move it. -/
theorem C4_origin_anchor_witness :
    ((0 : Int) - 0) - (0 - 0) ≤ 100000 ∧
      (ClockSync.init.processSyncResponse 0 40 0 0 1000).serverLoopStartUnix =
          some 999960 ∧
      ((ClockSync.init.processSyncResponse 0 40 0 0 1000).processSyncResponse
          0 999 999 0 2000).serverLoopStartUnix = some 999960 := by
  refine ⟨by decide, ?_, ?_⟩
  · have h := ((C4_origin_anchor ClockSync.init 0 40 0 0 1000 (by decide)).1
      (by decide)).1
    simpa using h
  · have h := ((C4_origin_anchor
        (ClockSync.init.processSyncResponse 0 40 0 0 1000)
        0 999 999 0 2000 (by decide)).2 (by decide)).1
    rw [h]
    decide

/-! ## Jitter scheduler (audio-scheduler.js)

The field `bufferQueue` of the scheduler is a JS array organised as a binary min-heap
keyed by the `playAt` millisecond timestamp; it is modelled as a `List`
indexed like the array. -/

/-- Fixed chunk duration, `this.ChunkDurationMs = 20`. -/
def ChunkDurationMs : Nat := 20

/-- A queued audio buffer `{timestamp, playAt, samples}`; `playAt` is the
`Date` value in milliseconds, `samples` the decoded PCM bytes. -/
structure Buffer where
  timestamp : Int
  playAt : Int
  samples : List Int
deriving DecidableEq, Repr

instance : Inhabited Buffer := ⟨⟨0, 0, []⟩⟩

/-- Swap the entries at positions `i` and `j` (a JS destructuring swap). -/
def swapAt (q : List Buffer) (i j : Nat) : List Buffer :=
  let a := q.getD i default
  let b := q.getD j default
  (q.set i b).set j a

theorem swapAt_length (q : List Buffer) (i j : Nat) :
    (swapAt q i j).length = q.length := by
  simp [swapAt]

/-- `AudioScheduler.bubbleUp(index)`: sift the element at `index` up while it
is strictly earlier than its parent. -/
def bubbleUp (q : List Buffer) (i : Nat) : List Buffer :=
  if i = 0 then q
  else if (q.getD ((i - 1) / 2) default).playAt ≤
      (q.getD i default).playAt then q
  else bubbleUp (swapAt q ((i - 1) / 2) i) ((i - 1) / 2)
termination_by i
decreasing_by
  omega

theorem bubbleUp_length (q : List Buffer) (i : Nat) :
    (bubbleUp q i).length = q.length := by
  induction i using Nat.strong_induction_on generalizing q with
  | _ i ih =>
    unfold bubbleUp
    split
    · rfl
    · split
      · rfl
      · next hi _ =>
        rw [ih ((i - 1) / 2) (by omega), swapAt_length]

/-- First comparison of `AudioScheduler.bubbleDown`: the smaller of `i` and
its in-range left child `2*i+1`. -/
def smallestLeft (q : List Buffer) (i : Nat) : Nat :=
  if 2 * i + 1 < q.length ∧
      (q.getD (2 * i + 1) default).playAt < (q.getD i default).playAt then
    2 * i + 1
  else i

/-- Second comparison of `AudioScheduler.bubbleDown`: the smaller of
`smallestLeft` and the in-range right child `2*i+2`. -/
def smallestChild (q : List Buffer) (i : Nat) : Nat :=
  if 2 * i + 2 < q.length ∧
      (q.getD (2 * i + 2) default).playAt <
        (q.getD (smallestLeft q i) default).playAt then
    2 * i + 2
  else smallestLeft q i

theorem smallestLeft_cases (q : List Buffer) (i : Nat) :
    smallestLeft q i = i ∨
      (smallestLeft q i = 2 * i + 1 ∧ 2 * i + 1 < q.length) := by
  unfold smallestLeft
  split_ifs with h
  · exact Or.inr ⟨rfl, h.1⟩
  · exact Or.inl rfl

theorem smallestChild_cases (q : List Buffer) (i : Nat) :
    smallestChild q i = i ∨
      (i < smallestChild q i ∧ smallestChild q i < q.length) := by
  unfold smallestChild
  split_ifs with h
  · exact Or.inr ⟨by omega, h.1⟩
  · rcases smallestLeft_cases q i with hc | ⟨hc, hlt⟩
    · exact Or.inl hc
    · exact Or.inr ⟨by omega, by omega⟩

/-- `AudioScheduler.bubbleDown(index)`: sift the element at `index` down,
swapping with the strictly smaller of its children until it is smallest. -/
def bubbleDown (q : List Buffer) (i : Nat) : List Buffer :=
  if smallestChild q i = i then q
  else bubbleDown (swapAt q i (smallestChild q i)) (smallestChild q i)
termination_by q.length - i
decreasing_by
  rcases smallestChild_cases q i with h | ⟨h1, h2⟩
  · simp_all
  · rw [swapAt_length]
    omega

theorem bubbleDown_length (q : List Buffer) (i : Nat) :
    (bubbleDown q i).length = q.length := by
  have key : ∀ (m : Nat) (q : List Buffer) (i : Nat), q.length - i ≤ m →
      (bubbleDown q i).length = q.length := by
    intro m
    induction m with
    | zero =>
      intro q i h
      rcases smallestChild_cases q i with hc | ⟨h1, h2⟩
      · unfold bubbleDown
        simp [hc]
      · omega
    | succ m ih =>
      intro q i h
      unfold bubbleDown
      split
      · rfl
      · next hne =>
        rcases smallestChild_cases q i with hc | ⟨h1, h2⟩
        · exact absurd hc hne
        · rw [ih _ _ (by rw [swapAt_length]; omega), swapAt_length]
  exact key (q.length - i) q i le_rfl

/-- `AudioScheduler.insertBuffer(buffer)`: JS `push` then `bubbleUp` at the
last index (which is the pre-push length). -/
def insertBuffer (q : List Buffer) (b : Buffer) : List Buffer :=
  bubbleUp (q ++ [b]) q.length

theorem insertBuffer_length (q : List Buffer) (b : Buffer) :
    (insertBuffer q b).length = q.length + 1 := by
  simp [insertBuffer, bubbleUp_length]

/-- `AudioScheduler.pop()`: take the root, move the last element to the root
and sift it down.  Returns the removed buffer (if any) with the new queue. -/
def heapPop (q : List Buffer) : Option Buffer × List Buffer :=
  match q with
  | [] => (none, [])
  | top :: _ =>
    let last := q.getLast?.getD default
    let q1 := q.dropLast
    if q1.length = 0 then (some top, q1)
    else (some top, bubbleDown (q1.set 0 last) 0)

theorem heapPop_length (q : List Buffer) (h : q ≠ []) :
    (heapPop q).2.length = q.length - 1 := by
  match q with
  | [] => exact absurd rfl h
  | top :: rest =>
    unfold heapPop
    dsimp only
    split
    · simp [List.length_dropLast]
    · simp [bubbleDown_length, List.length_dropLast]

/-- Running statistics of the scheduler. -/
structure Stats where
  received : Nat
  played : Nat
  dropped : Nat
deriving DecidableEq, Repr

/-- State of the `AudioScheduler` class. -/
structure Scheduler where
  bufferMs : Nat
  bufferTarget : Nat
  maxQueueSize : Nat
  bufferQueue : List Buffer
  buffering : Bool
  running : Bool
  bufferStartTime : Option Int
  lastPlayTime : Option Int
  lastReceiveTime : Option Int
  consecutiveDrops : Nat
  stats : Stats
deriving DecidableEq, Repr

/-- The `AudioScheduler` constructor:
`bufferTarget = max(1, floor(bufferMs / 20))` and
`maxQueueSize = min(600, floor(bufferMs / 20) + 50)`. -/
def mkScheduler (bufferMs : Nat) : Scheduler :=
  { bufferMs := bufferMs
    bufferTarget := max 1 (bufferMs / ChunkDurationMs)
    maxQueueSize := min 600 (bufferMs / ChunkDurationMs + 50)
    bufferQueue := []
    buffering := true
    running := false
    bufferStartTime := none
    lastPlayTime := none
    lastReceiveTime := none
    consecutiveDrops := 0
    stats := ⟨0, 0, 0⟩ }

/-- `AudioScheduler.schedule(audioData, timestamp)`.  `serverUnixTime` is the
value returned by `clockSync.serverToUnixTime(timestamp)` (microseconds), and
`playAt = new Date(serverUnixTime / 1000)` truncates toward zero to whole
milliseconds.  A chunk more than 50 ms late is dropped before queueing; then
a full queue (`length ≥ maxQueueSize`) drops the new chunk; otherwise the
chunk is pushed into the heap. -/
def Scheduler.schedule (s : Scheduler) (samples : List Int)
    (timestamp serverUnixTime nowMs : Int) : Scheduler :=
  let s1 := { s with lastReceiveTime := some nowMs }
  let playAt := Int.tdiv serverUnixTime 1000
  let delayMs := playAt - nowMs
  let buffer : Buffer := ⟨timestamp, playAt, samples⟩
  let s2 := { s1 with stats := { s1.stats with received := s1.stats.received + 1 } }
  if delayMs < -50 then
    { s2 with
      stats := { s2.stats with dropped := s2.stats.dropped + 1 }
      consecutiveDrops := s2.consecutiveDrops + 1 }
  else if s2.maxQueueSize ≤ s2.bufferQueue.length then
    { s2 with
      stats := { s2.stats with dropped := s2.stats.dropped + 1 }
      consecutiveDrops := s2.consecutiveDrops + 1 }
  else
    { s2 with bufferQueue := insertBuffer s2.bufferQueue buffer }

/-- The release loop of `AudioScheduler.processQueue()`: repeatedly look at
the heap root; stop when it is more than 50 ms early; drop it when more than
50 ms late; otherwise play it (pop, count it played, reset the consecutive
drop counter). -/
def Scheduler.processLoop (s : Scheduler) (nowMs : Int) : Scheduler :=
  match hq : s.bufferQueue with
  | [] => s
  | top :: _ =>
    let delayMs := top.playAt - nowMs
    if 50 < delayMs then s
    else if delayMs < -50 then
      Scheduler.processLoop
        { s with
          bufferQueue := (heapPop s.bufferQueue).2
          stats := { s.stats with dropped := s.stats.dropped + 1 }
          consecutiveDrops := s.consecutiveDrops + 1 } nowMs
    else
      Scheduler.processLoop
        { s with
          bufferQueue := (heapPop s.bufferQueue).2
          stats := { s.stats with played := s.stats.played + 1 }
          lastPlayTime := some nowMs
          consecutiveDrops := 0 } nowMs
termination_by s.bufferQueue.length
decreasing_by
  all_goals
    have hne : s.bufferQueue ≠ [] := by rw [hq]; simp
    rw [heapPop_length _ hne, hq]
    simp

/-- `AudioScheduler.processQueue()`: while `buffering`, wait until the queue
reaches `bufferTarget`, then leave buffering mode and run the release loop. -/
def Scheduler.processQueue (s : Scheduler) (nowMs : Int) : Scheduler :=
  if s.buffering then
    if s.bufferTarget ≤ s.bufferQueue.length then
      Scheduler.processLoop { s with buffering := false } nowMs
    else s
  else Scheduler.processLoop s nowMs

/-- `AudioScheduler.attemptRecovery()` (watchdog recovery): flush the queue
counting the flushed chunks as dropped, re-enter buffering, reset the
buffering deadline and the consecutive-drop counter. -/
def Scheduler.attemptRecovery (s : Scheduler) (nowMs : Int) : Scheduler :=
  { s with
    bufferQueue := []
    stats := { s.stats with dropped := s.stats.dropped + s.bufferQueue.length }
    buffering := true
    bufferStartTime := some nowMs
    consecutiveDrops := 0 }

/-- `AudioScheduler.clear()` (stream/clear handler): empty the queue and
re-enter buffering mode.  The flushed chunks are NOT counted as dropped. -/
def Scheduler.clear (s : Scheduler) : Scheduler :=
  { s with bufferQueue := [], buffering := true }

/-! ## Scheduler lifetime as a step relation -/

/-- One observable scheduler operation: chunk ingress (`schedule`), a release
tick (`processQueue`), a watchdog recovery, or a stream/clear. -/
inductive SchedStep where
  | schedule (samples : List Int) (timestamp serverUnixTime nowMs : Int)
  | process (nowMs : Int)
  | recover (nowMs : Int)
  | clear
deriving DecidableEq, Repr

/-- Apply one step to a scheduler state. -/
def applyStep (s : Scheduler) : SchedStep → Scheduler
  | .schedule samples timestamp serverUnixTime nowMs =>
    s.schedule samples timestamp serverUnixTime nowMs
  | .process nowMs => s.processQueue nowMs
  | .recover nowMs => s.attemptRecovery nowMs
  | .clear => s.clear

/-- Run a list of steps from a scheduler state. -/
def runSteps (s : Scheduler) : List SchedStep → Scheduler
  | [] => s
  | st :: rest => runSteps (applyStep s st) rest

/-- Total number of queued chunks flushed by `clear` steps along a trace
(these are the chunks that vanish without being counted played or dropped). -/
def clearedOf (s : Scheduler) : List SchedStep → Nat
  | [] => 0
  | st :: rest =>
    (match st with
      | .clear => s.bufferQueue.length
      | _ => 0) + clearedOf (applyStep s st) rest

/-- The stats identity as an accounting predicate: every received chunk is
played, dropped, still queued, or was flushed by a clear (`c` chunks). -/
def statsInv (s : Scheduler) (c : Nat) : Prop :=
  s.stats.received = s.stats.played + s.stats.dropped + s.bufferQueue.length + c

theorem statsInv_schedule (s : Scheduler) (c : Nat) (h : statsInv s c)
    (samples : List Int) (timestamp serverUnixTime nowMs : Int) :
    statsInv (s.schedule samples timestamp serverUnixTime nowMs) c := by
  unfold statsInv at h ⊢
  unfold Scheduler.schedule
  dsimp only
  split
  · dsimp only
    omega
  · split
    · dsimp only
      omega
    · dsimp only
      rw [insertBuffer_length]
      omega

theorem statsInv_processLoop (s : Scheduler) (c : Nat) (h : statsInv s c)
    (nowMs : Int) : statsInv (s.processLoop nowMs) c := by
  have key : ∀ (m : Nat) (s : Scheduler), s.bufferQueue.length ≤ m →
      statsInv s c → statsInv (s.processLoop nowMs) c := by
    intro m
    induction m with
    | zero =>
      intro s hm hs
      unfold Scheduler.processLoop
      split
      · exact hs
      · next top tail hq =>
        rw [hq] at hm
        simp at hm
    | succ m ih =>
      intro s hm hs
      unfold Scheduler.processLoop
      split
      · exact hs
      · next top tail hq =>
        have hne : s.bufferQueue ≠ [] := by rw [hq]; simp
        have hlen : (heapPop s.bufferQueue).2.length =
            s.bufferQueue.length - 1 := heapPop_length _ hne
        have hpos : 0 < s.bufferQueue.length := by rw [hq]; simp
        dsimp only
        split
        · exact hs
        · split
          · apply ih
            · dsimp only
              omega
            · unfold statsInv at hs ⊢
              dsimp only
              omega
          · apply ih
            · dsimp only
              omega
            · unfold statsInv at hs ⊢
              dsimp only
              omega
  exact key s.bufferQueue.length s le_rfl h

theorem statsInv_processQueue (s : Scheduler) (c : Nat) (h : statsInv s c)
    (nowMs : Int) : statsInv (s.processQueue nowMs) c := by
  unfold Scheduler.processQueue
  split
  · split
    · exact statsInv_processLoop _ _ (by unfold statsInv at h ⊢; exact h) _
    · exact h
  · exact statsInv_processLoop _ _ h _

theorem statsInv_attemptRecovery (s : Scheduler) (c : Nat) (h : statsInv s c)
    (nowMs : Int) : statsInv (s.attemptRecovery nowMs) c := by
  unfold statsInv at h ⊢
  unfold Scheduler.attemptRecovery
  simp only [List.length_nil]
  omega

theorem statsInv_runSteps (s : Scheduler) (c : Nat) (h : statsInv s c)
    (trace : List SchedStep) :
    statsInv (runSteps s trace) (c + clearedOf s trace) := by
  induction trace generalizing s c with
  | nil => simpa [runSteps, clearedOf] using h
  | cons st rest ih =>
    match st with
    | .schedule samples timestamp serverUnixTime nowMs =>
      have h1 := statsInv_schedule s c h samples timestamp serverUnixTime nowMs
      simpa [runSteps, clearedOf, applyStep] using ih _ _ h1
    | .process nowMs =>
      have h1 := statsInv_processQueue s c h nowMs
      simpa [runSteps, clearedOf, applyStep] using ih _ _ h1
    | .recover nowMs =>
      have h1 := statsInv_attemptRecovery s c h nowMs
      simpa [runSteps, clearedOf, applyStep] using ih _ _ h1
    | .clear =>
      have h1 : statsInv s.clear (c + s.bufferQueue.length) := by
        unfold statsInv at h ⊢
        unfold Scheduler.clear
        simp only [List.length_nil]
        omega
      have h2 := ih s.clear (c + s.bufferQueue.length) h1
      simp only [runSteps, clearedOf, applyStep]
      have : c + s.bufferQueue.length + clearedOf s.clear rest =
          c + (s.bufferQueue.length + clearedOf s.clear rest) := by omega
      rw [← this]
      exact h2

/-- C1 counterexample: the claim asserts the identity
`received = played + dropped + queue.len` survives stream/clear, but
`AudioScheduler.clear()` empties the queue WITHOUT counting the flushed
chunks as dropped.  Concretely, from a fresh scheduler
(`bufferMs = 11000`), scheduling one punctual chunk and then clearing gives
`received = 1` but `played + dropped + queue.len = 0`. -/
theorem C1_stats_identity_counterexample :
    ¬((runSteps (mkScheduler 11000)
          [.schedule [] 0 0 0, .clear]).stats.received =
        (runSteps (mkScheduler 11000)
            [.schedule [] 0 0 0, .clear]).stats.played +
          (runSteps (mkScheduler 11000)
              [.schedule [] 0 0 0, .clear]).stats.dropped +
          (runSteps (mkScheduler 11000)
              [.schedule [] 0 0 0, .clear]).bufferQueue.length) ∧
      (runSteps (mkScheduler 11000)
          [.schedule [] 0 0 0, .clear]).stats.received = 1 ∧
      (runSteps (mkScheduler 11000)
          [.schedule [] 0 0 0, .clear]).stats.played = 0 ∧
      (runSteps (mkScheduler 11000)
          [.schedule [] 0 0 0, .clear]).stats.dropped = 0 ∧
      (runSteps (mkScheduler 11000)
          [.schedule [] 0 0 0, .clear]).bufferQueue.length = 0 := by
  decide

/-- C1 amended: over every interleaving of schedule, processQueue release
steps, watchdog recovery and clear, the statistics satisfy
`received = played + dropped + queue.len + (chunks flushed by clear steps)`;
in particular the original identity `received = played + dropped + queue.len`
holds at every instant of every clear-free trace, while stream/clear (which
flushes the heap and re-enters buffering without counting the flushed chunks
as dropped) breaks it by exactly the number of chunks it flushes. -/
theorem C1_stats_identity (bufferMs : Nat) (trace : List SchedStep) :
    (runSteps (mkScheduler bufferMs) trace).stats.received =
      (runSteps (mkScheduler bufferMs) trace).stats.played +
        (runSteps (mkScheduler bufferMs) trace).stats.dropped +
        (runSteps (mkScheduler bufferMs) trace).bufferQueue.length +
        clearedOf (mkScheduler bufferMs) trace := by
  have h0 : statsInv (mkScheduler bufferMs) 0 := by
    unfold statsInv mkScheduler
    simp
  have h := statsInv_runSteps (mkScheduler bufferMs) 0 h0 trace
  unfold statsInv at h
  simpa using h

/-- The ingress lateness test in milliseconds is equivalent to the microsecond
formulation of the claim: for a nonnegative play instant,
`trunc(serverUnixTime/1000) - nowMs < -50` iff
`serverUnixTime - 1000*nowMs < -50000`. -/
theorem tdiv_delay_iff (a nowMs : Int) (ha : 0 ≤ a) :
    (Int.tdiv a 1000 - nowMs < -50) ↔ (a - 1000 * nowMs < -50000) := by
  rw [Int.tdiv_eq_ediv ha (by norm_num)]
  omega

/-- C5: a chunk whose play instant is more than 50_000 μs in the past at
ingress is dropped by `schedule` (`dropped` and `consecutiveDrops` are
incremented, the queue untouched), while a chunk exactly 50_000 μs late is
kept and pushed into the heap (provided the queue is below `maxQueueSize`).
`serverUnixTime` is the converted play instant in Unix microseconds and
`1000 * nowMs` the current time in microseconds. -/
theorem C5_ingress_lateness_boundary (s : Scheduler) (samples : List Int)
    (timestamp serverUnixTime nowMs : Int) (hpos : 0 ≤ serverUnixTime) :
    (serverUnixTime - 1000 * nowMs < -50000 →
        (s.schedule samples timestamp serverUnixTime nowMs).bufferQueue =
            s.bufferQueue ∧
          (s.schedule samples timestamp serverUnixTime nowMs).stats.dropped =
            s.stats.dropped + 1 ∧
          (s.schedule samples timestamp serverUnixTime
              nowMs).consecutiveDrops = s.consecutiveDrops + 1 ∧
          (s.schedule samples timestamp serverUnixTime nowMs).stats.received =
            s.stats.received + 1) ∧
      (serverUnixTime - 1000 * nowMs = -50000 →
        s.bufferQueue.length < s.maxQueueSize →
        (s.schedule samples timestamp serverUnixTime nowMs).bufferQueue =
            insertBuffer s.bufferQueue
              ⟨timestamp, Int.tdiv serverUnixTime 1000, samples⟩ ∧
          (s.schedule samples timestamp serverUnixTime nowMs).stats.dropped =
            s.stats.dropped ∧
          (s.schedule samples timestamp serverUnixTime nowMs).stats.received =
            s.stats.received + 1) := by
  constructor
  · intro hlate
    have hlt : Int.tdiv serverUnixTime 1000 - nowMs < -50 :=
      (tdiv_delay_iff serverUnixTime nowMs hpos).mpr hlate
    unfold Scheduler.schedule
    dsimp only
    rw [if_pos hlt]
    exact ⟨rfl, rfl, rfl, rfl⟩
  · intro hexact hroom
    have hnlt : ¬(Int.tdiv serverUnixTime 1000 - nowMs < -50) := by
      rw [tdiv_delay_iff serverUnixTime nowMs hpos]
      omega
    have hnfull : ¬(s.maxQueueSize ≤ s.bufferQueue.length) := by omega
    unfold Scheduler.schedule
    dsimp only
    rw [if_neg hnlt, if_neg hnfull]
    exact ⟨rfl, rfl, rfl⟩

/-- Witness for C5: with `now = 1000 ms`, the chunk at `949_999` μs
(50_001 μs late) is dropped and the chunk at `950_000` μs (exactly 50_000 μs
late) is pushed into the heap of a fresh `bufferMs = 150` scheduler. -/
theorem C5_ingress_lateness_boundary_witness :
    ((mkScheduler 150).schedule [] 0 949999 1000).bufferQueue = [] ∧
      ((mkScheduler 150).schedule [] 0 949999 1000).stats.dropped = 1 ∧
      ((mkScheduler 150).schedule [] 0 950000 1000).bufferQueue =
        insertBuffer [] ⟨0, 950, []⟩ ∧
      ((mkScheduler 150).schedule [] 0 950000 1000).stats.dropped = 0 := by
  have h1 := (C5_ingress_lateness_boundary (mkScheduler 150) [] 0 949999 1000
    (by decide)).1 (by decide)
  have h2 := (C5_ingress_lateness_boundary (mkScheduler 150) [] 0 950000 1000
    (by decide)).2 (by decide) (by decide)
  refine ⟨h1.1, h1.2.1, ?_, h2.2.1⟩
  rw [h2.1, show Int.tdiv 950000 1000 = 950 from by decide]
  rfl

/-- The `SendspinClient` constructor default `config.bufferMs || 150`:
an omitted (or JS-falsy `0`) `bufferMs` yields 150 ms. -/
def configBufferMs : Option Nat → Nat
  | none => 150
  | some v => if v = 0 then 150 else v

/-- The buffer size the Volumio controller passes when creating the client
(`bufferMs: 11000` in the plugin method `onStart`). -/
def controllerBufferMs : Nat := 11000

/-- C6 counterexample: the claim says an omitted `buffer_ms` defaults to
11_000 ms giving `buffer_target_chunks = 550`; in the code the client
default is `config.bufferMs || 150`, so an omitted `buffer_ms` gives 150 ms
and a buffer target of `max(1, 150/20) = 7`, not 550. -/
theorem C6_buffer_default_counterexample :
    configBufferMs none = 150 ∧
      (mkScheduler (configBufferMs none)).bufferTarget = 7 ∧
      ¬(mkScheduler (configBufferMs none)).bufferTarget = 550 := by
  decide

/-- C6 amended: when the configuration omits `buffer_ms` the client default
is 150 ms, so the scheduler is created with
`buffer_target_chunks = max(1, 150/20) = 7`; the value 11_000 ms is not a
default but is passed explicitly by the Volumio controller, and a scheduler
created with `buffer_ms = 11_000` has
`buffer_target_chunks = max(1, 11000/20) = 550`. -/
theorem C6_buffer_default_amended :
    configBufferMs none = 150 ∧
      (mkScheduler (configBufferMs none)).bufferTarget = 7 ∧
      (mkScheduler controllerBufferMs).bufferTarget =
        max 1 (controllerBufferMs / ChunkDurationMs) ∧
      (mkScheduler controllerBufferMs).bufferTarget = 550 := by
  decide

/-- C7: when the queue already holds at least
`min(600, buffer_target_chunks + 50)` chunks, `schedule` drops the newly
arriving chunk (`dropped` incremented) and leaves the queue contents
untouched — no queued chunk is evicted.  The hypotheses fix
`bufferTarget` and `maxQueueSize` to their constructor values. -/
theorem C7_queue_full_drop (s : Scheduler) (samples : List Int)
    (timestamp serverUnixTime nowMs : Int)
    (htarget : s.bufferTarget = max 1 (s.bufferMs / ChunkDurationMs))
    (hmax : s.maxQueueSize = min 600 (s.bufferMs / ChunkDurationMs + 50))
    (hfull : min 600 (s.bufferTarget + 50) ≤ s.bufferQueue.length) :
    (s.schedule samples timestamp serverUnixTime nowMs).bufferQueue =
        s.bufferQueue ∧
      (s.schedule samples timestamp serverUnixTime nowMs).stats.dropped =
        s.stats.dropped + 1 ∧
      (s.schedule samples timestamp serverUnixTime nowMs).stats.received =
        s.stats.received + 1 ∧
      (s.schedule samples timestamp serverUnixTime nowMs).consecutiveDrops =
        s.consecutiveDrops + 1 := by
  have hge : s.maxQueueSize ≤ s.bufferQueue.length := by
    rw [htarget] at hfull
    rw [hmax]
    omega
  unfold Scheduler.schedule
  dsimp only
  split_ifs with h1
  · exact ⟨rfl, rfl, rfl, rfl⟩
  · exact ⟨rfl, rfl, rfl, rfl⟩

/-- Witness for C7: a `bufferMs = 0` scheduler (`bufferTarget = 1`,
`maxQueueSize = 50`) whose queue holds 51 chunks — at least
`min(600, 1 + 50) = 51` — drops a punctual incoming chunk and keeps the
queue unchanged. -/
theorem C7_queue_full_drop_witness :
    (({ mkScheduler 0 with
          bufferQueue := List.replicate 51 default }).schedule [] 0 0 0
        ).bufferQueue = List.replicate 51 default ∧
      (({ mkScheduler 0 with
            bufferQueue := List.replicate 51 default }).schedule [] 0 0 0
          ).stats.dropped = 1 := by
  have h := C7_queue_full_drop
    { mkScheduler 0 with bufferQueue := List.replicate 51 default }
    [] 0 0 0 (by decide) (by decide) (by decide)
  exact ⟨h.1, h.2.1⟩

/-! ## Binary frame handling (SendspinClient.handleBinaryMessage) -/

/-- `data.readBigUInt64BE(1)`: big-endian unsigned 64-bit read of the first
eight bytes of `l` (the frame with its kind byte already dropped). -/
def readBigUInt64BE (l : List Nat) : Nat :=
  (l.take 8).foldl (fun acc b => acc * 256 + b) 0

/-- Classification of one inbound binary frame. -/
inductive BinMsgResult where
  | malformed
  | audio (timestamp : Nat) (payload : List Nat)
  | other (kind : Nat)
deriving DecidableEq, Repr

/-- The parsing layer of `SendspinClient.handleBinaryMessage(data)`:
frames shorter than 9 bytes are malformed and dropped; byte 0 is the kind;
kind 4 is an audio chunk whose timestamp is the big-endian uint64 in bytes
1..9 and whose payload is everything from byte 9 on. -/
def handleBinaryMessage (data : List Nat) : BinMsgResult :=
  if data.length < 9 then .malformed
  else
    let messageType := data.getD 0 0
    if messageType = 4 then
      .audio (readBigUInt64BE (data.drop 1)) (data.drop 9)
    else .other messageType

/-- The client state touched by the binary path: connection flag, clock and
scheduler (the session state relevant to claim C8). -/
structure ClientState where
  connected : Bool
  clock : ClockSync
  scheduler : Scheduler
deriving Repr

/-- The state effect of `SendspinClient.handleBinaryMessage`: a malformed or
non-audio frame is logged and dropped (the connection is not closed and no
state changes); an audio frame is decoded (PCM pass-through here) and
scheduled via the clock conversion. -/
def ClientState.handleBinary (c : ClientState) (data : List Nat)
    (nowMs : Int) : ClientState :=
  match handleBinaryMessage data with
  | .malformed => c
  | .other _ => c
  | .audio timestamp payload =>
    let conv := c.clock.serverToUnixTime (timestamp : Int) nowMs
    { c with
      clock := conv.1
      scheduler := c.scheduler.schedule (payload.map Int.ofNat)
        (timestamp : Int) conv.2 nowMs }

/-- C8: every binary frame shorter than 9 bytes is classified malformed and
dropped — the connection stays open and the client state (clock, scheduler,
session) is untouched; a frame of exactly 9 bytes whose kind byte is `4` is
accepted as an audio chunk with a zero-length payload. -/
theorem C8_short_frame_malformed (c : ClientState) (data : List Nat)
    (nowMs : Int) (bs : List Nat) :
    (data.length < 9 →
        handleBinaryMessage data = .malformed ∧
          c.handleBinary data nowMs = c) ∧
      (bs.length = 8 →
        handleBinaryMessage (4 :: bs) =
          .audio (readBigUInt64BE bs) []) := by
  constructor
  · intro hshort
    have hm : handleBinaryMessage data = .malformed := by
      unfold handleBinaryMessage
      rw [if_pos hshort]
    refine ⟨hm, ?_⟩
    unfold ClientState.handleBinary
    rw [hm]
  · intro hlen
    have hnine : ¬((4 :: bs).length < 9) := by simp [hlen]
    unfold handleBinaryMessage
    rw [if_neg hnine]
    have hdrop : (4 :: bs).drop 9 = [] := by
      apply List.drop_eq_nil_of_le
      simp [hlen]
    simp [hdrop]

/-- Witness for C8: an 8-byte frame is dropped as malformed leaving a
concrete client state untouched, and the 9-byte frame
`[4,0,0,0,0,0,0,0,1]` is accepted as an audio chunk with timestamp 1 and
zero-length payload. -/
theorem C8_short_frame_malformed_witness :
    handleBinaryMessage [4, 0, 0, 0, 0, 0, 0, 0] = .malformed ∧
      (ClientState.handleBinary
          ⟨true, ClockSync.init, mkScheduler 150⟩ [4, 0, 0, 0, 0, 0, 0, 0]
          0) = ⟨true, ClockSync.init, mkScheduler 150⟩ ∧
      handleBinaryMessage [4, 0, 0, 0, 0, 0, 0, 0, 1] = .audio 1 [] := by
  have h1 := (C8_short_frame_malformed
    ⟨true, ClockSync.init, mkScheduler 150⟩ [4, 0, 0, 0, 0, 0, 0, 0] 0
    [0, 0, 0, 0, 0, 0, 0, 1]).1 (by decide)
  have h2 := (C8_short_frame_malformed
    ⟨true, ClockSync.init, mkScheduler 150⟩ [4, 0, 0, 0, 0, 0, 0, 0] 0
    [0, 0, 0, 0, 0, 0, 0, 1]).2 (by decide)
  refine ⟨h1.1, h1.2, ?_⟩
  rw [h2]
  decide

/-! ## Reconnect policy (SendspinClient.scheduleReconnect) -/

/-- Reconnection-related fields of the client.  `maxReconnectAttempts` is
`Infinity` in the source, modelled as `none`. -/
structure ReconnectState where
  shouldReconnect : Bool
  reconnectAttempts : Nat
  reconnectDelay : Nat
  maxReconnectDelay : Nat
  maxReconnectAttempts : Option Nat
deriving DecidableEq, Repr

/-- Constructor values: reconnect disabled until `start()`, zero attempts,
1000 ms base delay, 30_000 ms cap, unlimited attempts. -/
def initReconnect : ReconnectState :=
  { shouldReconnect := false
    reconnectAttempts := 0
    reconnectDelay := 1000
    maxReconnectDelay := 30000
    maxReconnectAttempts := none }

/-- The guard `this.reconnectAttempts >= this.maxReconnectAttempts`, which
is always false when the cap is `Infinity` (modelled `none`). -/
def reachedMaxAttempts (s : ReconnectState) : Bool :=
  match s.maxReconnectAttempts with
  | some m => decide (m ≤ s.reconnectAttempts)
  | none => false

/-- `SendspinClient.scheduleReconnect()`: no-op when reconnection is
disabled or the attempt cap is reached; otherwise bump the attempt counter
and schedule a timer for
`min(reconnectDelay * 2^(attempts-1), maxReconnectDelay)` ms.
Returns the new state and the scheduled delay (`none` when not
scheduled). -/
def scheduleReconnect (s : ReconnectState) : ReconnectState × Option Nat :=
  if s.shouldReconnect = false then (s, none)
  else if reachedMaxAttempts s then (s, none)
  else
    ({ s with reconnectAttempts := s.reconnectAttempts + 1 },
      some (min (s.reconnectDelay * 2 ^ (s.reconnectAttempts + 1 - 1))
        s.maxReconnectDelay))

/-- The reset performed on a successful (re)connection:
`reconnectAttempts = 0` and `reconnectDelay = 1000`. -/
def onConnectSuccess (s : ReconnectState) : ReconnectState :=
  { s with reconnectAttempts := 0, reconnectDelay := 1000 }

/-- C9: with reconnection enabled and the constructor parameters
(`reconnectDelay = 1000`, `maxReconnectDelay = 30000`,
`maxReconnectAttempts = ∞`), attempt number `n = attempts+1` is always
scheduled (attempts are unbounded) with delay
`min(1000 * 2^(n-1), 30_000)` ms, and a successful connection resets the
attempt counter to 0 and the base delay to 1000 ms. -/
theorem C9_reconnect_backoff (s : ReconnectState)
    (hon : s.shouldReconnect = true) (hdelay : s.reconnectDelay = 1000)
    (hcap : s.maxReconnectDelay = 30000)
    (hmax : s.maxReconnectAttempts = none) :
    (scheduleReconnect s).2 =
        some (min (1000 * 2 ^ s.reconnectAttempts) 30000) ∧
      (scheduleReconnect s).1.reconnectAttempts = s.reconnectAttempts + 1 ∧
      (onConnectSuccess (scheduleReconnect s).1).reconnectAttempts = 0 ∧
      (onConnectSuccess (scheduleReconnect s).1).reconnectDelay = 1000 := by
  obtain ⟨sr, ra, rd, mrd, mra⟩ := s
  dsimp only at hon hdelay hcap hmax ⊢
  subst hon
  subst hdelay
  subst hcap
  subst hmax
  simp [scheduleReconnect, reachedMaxAttempts, onConnectSuccess]

/-- Witness for C9: from a just-started client (`shouldReconnect = true`,
no attempts yet) the first scheduled delay is `min(1000 * 2^0, 30000)`,
i.e. 1000 ms, and the counter moves 0 → 1 and resets on success. -/
theorem C9_reconnect_backoff_witness :
    (scheduleReconnect
        { initReconnect with shouldReconnect := true }).2 = some 1000 ∧
      (scheduleReconnect
          { initReconnect with shouldReconnect := true
            }).1.reconnectAttempts = 1 ∧
      (onConnectSuccess (scheduleReconnect
          { initReconnect with shouldReconnect := true
            }).1).reconnectAttempts = 0 := by
  have h := C9_reconnect_backoff
    { initReconnect with shouldReconnect := true }
    (by decide) (by decide) (by decide) (by decide)
  refine ⟨?_, h.2.1, h.2.2.1⟩
  rw [h.1]
  decide

/-! ## Server command handling (SendspinClient.handleTextMessage) -/

/-- The mutable player configuration fields touched by `server/command`. -/
structure PlayerConfig where
  volume : Int
  muted : Bool
deriving DecidableEq, Repr

/-- An outbound `client/state` payload `player{state, volume, muted}`. -/
structure PlayerStateMsg where
  state : String
  volume : Int
  muted : Bool
deriving DecidableEq, Repr

/-- A `server/command` payload with its `player.command` discriminator and
the present optional field. -/
inductive ServerCommand where
  | volume (v : Int)
  | mute (m : Bool)
deriving DecidableEq, Repr

/-- The `server/command` case of `SendspinClient.handleTextMessage`:
a volume command stores the volume and echoes
`sendState` with state synchronized, the volume, and literal false — the muted argument is the
literal `false`, not the stored flag; a mute command stores the flag and
echoes `sendState` with state synchronized, the volume, and the stored flag. -/
def handleServerCommand (cfg : PlayerConfig) :
    ServerCommand → PlayerConfig × PlayerStateMsg
  | .volume v =>
    ({ cfg with volume := v }, ⟨"synchronized", v, false⟩)
  | .mute m =>
    ({ cfg with muted := m }, ⟨"synchronized", cfg.volume, m⟩)

/-- C10: after a `server/command` mute has set the muted flag, a subsequent
`server/command` volume echoes a `client/state` carrying `muted = false`
even though the stored flag is still `true` — the volume-command echo always
reports `muted = false` regardless of the stored mute state. -/
theorem C10_volume_echo_unmuted (cfg : PlayerConfig) (v : Int) :
    ((handleServerCommand cfg (.mute true)).1).muted = true ∧
      (handleServerCommand (handleServerCommand cfg (.mute true)).1
          (.volume v)).2.muted = false ∧
      (handleServerCommand (handleServerCommand cfg (.mute true)).1
          (.volume v)).1.muted = true := by
  exact ⟨rfl, rfl, rfl⟩

end Sendspin
